import Mathlib

/-!
Shallow embedding of the matchmaking core of the networking-app backend
(`src/main.py`, endpoint `POST /api/matches`, handler `get_matches`,
together with the `Profile` schema of `src/schemas.py` restricted to the
fields the matching engine reads).

Modelling decisions:
* A stored profile document is modelled by the fields the engine touches:
  its Mongo `_id` (an opaque string here), `name`, `email`, and the
  `skills` / `interests` string lists.
* The profile collection is a `List Profile` in insertion/fetch order;
  `find_one {"_id": oid}` is `List.find?` on the id.
* `ObjectId(s)` on a string argument succeeds exactly when `s` is a
  24-character hexadecimal string; otherwise it raises `InvalidId`, which
  the handler's `except Exception` turns into an HTTP 400.  We model the
  error path with `Except.error`.
* Python floats: every score is `2*a + b + 0.5*c` with `a b c : Nat`, which
  is exact in binary floating point, so `ℚ` is a faithful carrier.
* `scored.sort(key=..., reverse=True)` is a stable descending sort by
  score: `List.mergeSort` with `le x y := y.score ≤ x.score` (Lean's
  `mergeSort` is stable and, on ties, keeps the original order, exactly
  like CPython's Timsort).
* `scored[: payload.limit]` follows Python slice semantics for an
  arbitrary (possibly negative) integer bound.
-/

/-- The fields of a stored profile document that `get_matches` reads
(`src/schemas.py`, class `Profile`; `_id` is added by the store). -/
structure Profile where
  id : String
  name : String
  email : String
  skills : List String
  interests : List String
deriving DecidableEq, Repr

/-- Request body of `POST /api/matches` (`src/main.py`, class `MatchRequest`). -/
structure MatchRequest where
  profile_id : Option String := none
  goals : Option String := none
  skills : Option (List String) := none
  interests : Option (List String) := none
  limit : Int := 10
deriving DecidableEq, Repr

/-- One entry of the response: the candidate document plus its
`match_score` (`src/main.py` line 255). -/
structure ScoredProfile where
  profile : Profile
  match_score : ℚ
deriving DecidableEq, Repr

/-- `bson.ObjectId(s)` accepts a string argument exactly when it is a
24-character hex string. -/
def isValidObjectId (s : String) : Bool :=
  s.length = 24 && s.toList.all (fun c => c.isDigit || ('a' ≤ c && c ≤ 'f') || ('A' ≤ c && c ≤ 'F'))

/-- `db["profile"].find_one({"_id": ObjectId(pid)})`: first stored profile
with the given id, if any. -/
def find_one (store : List Profile) (pid : String) : Option Profile :=
  store.find? (fun p => p.id == pid)

/-- Lines 232–234 of `src/main.py` together with the surrounding
`try/except`: when a non-empty `profile_id` is supplied, `ObjectId` either
parses it (and the store is queried) or raises, which the handler converts
to HTTP 400 (line 258).  A falsy (empty) `profile_id` skips the lookup. -/
def resolveBaseProfile (store : List Profile) (payload : MatchRequest) : Except String (Option Profile) :=
  match payload.profile_id with
  | none => Except.ok none
  | some pid =>
    if pid = "" then Except.ok none
    else if isValidObjectId pid then Except.ok (find_one store pid)
    else Except.error "invalid ObjectId"

/-- Lines 235–240: base skill/interest sets from the resolved profile, or
else from the request body (`payload.skills or []`). -/
def baseSets (base_profile : Option Profile) (payload : MatchRequest) : Finset String × Finset String :=
  match base_profile with
  | some bp => (bp.skills.toFinset, bp.interests.toFinset)
  | none => ((payload.skills.getD []).toFinset, (payload.interests.getD []).toFinset)

/-- Lines 249–252: the per-candidate score
`2 * shared_interests + shared_skills + 0.5 * complement_skills`. -/
def matchScore (base_skills base_interests cand_skills cand_interests : Finset String) : ℚ :=
  2 * ((base_interests ∩ cand_interests).card : ℚ)
    + ((base_skills ∩ cand_skills).card : ℚ)
    + (1 / 2) * ((cand_skills \ base_skills).card : ℚ)

/-- Lines 247–252 applied to a candidate document: its `skills` and
`interests` lists are collapsed to sets first. -/
def scoreOf (base_skills base_interests : Finset String) (c : Profile) : ℚ :=
  matchScore base_skills base_interests c.skills.toFinset c.interests.toFinset

/-- Line 245: a candidate is skipped iff a base profile was resolved and
the candidate's `_id` equals the base profile's. -/
def candidateKept (base_profile : Option Profile) (c : Profile) : Bool :=
  match base_profile with
  | some bp => !(c.id == bp.id)
  | none => true

/-- Lines 243–253: the `scored` list of `(score, candidate)` pairs, in
corpus order, with the base profile (if any) filtered out. -/
def scoredList (store : List Profile) (base_profile : Option Profile)
    (base_skills base_interests : Finset String) : List (ℚ × Profile) :=
  (store.filter (candidateKept base_profile)).map
    (fun c => (scoreOf base_skills base_interests c, c))

/-- The comparison used at line 254: `sort(key=lambda x: x[0], reverse=True)`
orders by descending score, stably. -/
def descBy (x y : ℚ × Profile) : Bool := decide (y.1 ≤ x.1)

/-- Python's `l[:n]` for an arbitrary integer `n`: the first `n` elements
when `n ≥ 0`, and all but the last `|n|` elements when `n < 0`. -/
def pySliceTo (n : Int) (l : List α) : List α :=
  if 0 ≤ n then l.take n.toNat else l.take (l.length - (-n).toNat)

/-- Lines 254–255 for an already-resolved base profile: stable descending
sort of the scored list, Python slice to `limit`, and each `(score, doc)`
pair serialized as the document plus its `match_score`. -/
def resultsFor (store : List Profile) (payload : MatchRequest) (base_profile : Option Profile) :
    List ScoredProfile :=
  (pySliceTo payload.limit
      ((scoredList store base_profile (baseSets base_profile payload).1
          (baseSets base_profile payload).2).mergeSort descBy)).map
    (fun sc => ⟨sc.2, sc.1⟩)

/-- The handler `get_matches` (`src/main.py` lines 226–258).  `Except.error`
models the HTTP 400 raised when `ObjectId(profile_id)` fails; otherwise the
ranked, truncated result list is returned. -/
def get_matches (store : List Profile) (payload : MatchRequest) : Except String (List ScoredProfile) :=
  match resolveBaseProfile store payload with
  | Except.error e => Except.error e
  | Except.ok base_profile => Except.ok (resultsFor store payload base_profile)

/-! ### Basic lemmas about the embedding -/

theorem isValidObjectId_ne_empty {pid : String} (h : isValidObjectId pid = true) : pid ≠ "" := by
  intro hrfl
  subst hrfl
  simp [isValidObjectId] at h

theorem resolveBaseProfile_of_valid {store : List Profile} {payload : MatchRequest} {pid : String}
    (hpid : payload.profile_id = some pid) (hv : isValidObjectId pid = true) :
    resolveBaseProfile store payload = Except.ok (find_one store pid) := by
  simp [resolveBaseProfile, hpid, isValidObjectId_ne_empty hv, hv]

theorem get_matches_eq {store : List Profile} {payload : MatchRequest} {bp : Option Profile}
    (h : resolveBaseProfile store payload = Except.ok bp) :
    get_matches store payload = Except.ok (resultsFor store payload bp) := by
  simp [get_matches, h]

theorem pySliceTo_sublist (n : Int) (l : List α) : (pySliceTo n l).Sublist l := by
  unfold pySliceTo
  by_cases h : 0 ≤ n <;> simp [h, List.take_sublist]

theorem mem_resultsFor {store : List Profile} {payload : MatchRequest} {bp : Option Profile}
    {e : ScoredProfile} (he : e ∈ resultsFor store payload bp) :
    e.profile ∈ store ∧ candidateKept bp e.profile = true ∧
      e.match_score = scoreOf (baseSets bp payload).1 (baseSets bp payload).2 e.profile := by
  unfold resultsFor at he
  obtain ⟨sc, hsc, hend⟩ := List.mem_map.mp he
  have hsc' : sc ∈ (scoredList store bp (baseSets bp payload).1 (baseSets bp payload).2).mergeSort descBy :=
    (pySliceTo_sublist _ _).subset hsc
  have hsc'' : sc ∈ scoredList store bp (baseSets bp payload).1 (baseSets bp payload).2 :=
    (List.mergeSort_perm _ _).subset hsc'
  unfold scoredList at hsc''
  obtain ⟨c, hc, hpair⟩ := List.mem_map.mp hsc''
  obtain ⟨hcstore, hckept⟩ := List.mem_filter.mp hc
  subst hend
  cases hpair
  exact ⟨hcstore, hckept, rfl⟩

theorem descBy_trans : ∀ a b c : ℚ × Profile, descBy a b → descBy b c → descBy a c := by
  intro a b c hab hbc
  simp only [descBy, decide_eq_true_eq] at *
  exact le_trans hbc hab

theorem descBy_total : ∀ a b : ℚ × Profile, descBy a b || descBy b a := by
  intro a b
  simp only [descBy, Bool.or_eq_true, decide_eq_true_eq]
  exact le_total b.1 a.1

theorem sorted_resultsFor (store : List Profile) (payload : MatchRequest) (bp : Option Profile) :
    (resultsFor store payload bp).Pairwise (fun e1 e2 => e2.match_score ≤ e1.match_score) := by
  unfold resultsFor
  rw [List.pairwise_map]
  have hsorted := List.sorted_mergeSort descBy_trans descBy_total
    (scoredList store bp (baseSets bp payload).1 (baseSets bp payload).2)
  have := hsorted.sublist (pySliceTo_sublist payload.limit _)
  refine this.imp ?_
  intro a b h
  simpa [descBy, decide_eq_true_eq] using h

theorem scoreOf_nonneg (bs bi : Finset String) (c : Profile) : 0 ≤ scoreOf bs bi c := by
  unfold scoreOf matchScore
  positivity

/-! ### Concrete fixtures used by witnesses and counterexamples -/

/-- A syntactically valid `ObjectId` that matches none of the fixture
profiles below. -/
def pidMissing : String := "aaaaaaaaaaaaaaaaaaaaaaaa"

def carol : Profile :=
  ⟨"507f1f77bcf86cd799439013", "Carol", "carol@example.com", ["python"], []⟩

def reqC1 : MatchRequest := ⟨some pidMissing, none, some ["python"], some ["hiking"], 10⟩

def entC1 : ScoredProfile :=
  ⟨carol, scoreOf (baseSets none reqC1).1 (baseSets none reqC1).2 carol⟩

def bob : Profile :=
  ⟨"507f1f77bcf86cd799439012", "Bob", "bob@example.com", [], []⟩

def dana : Profile :=
  ⟨"507f1f77bcf86cd799439014", "Dana", "dana@example.com", [], []⟩

def reqNegLimit : MatchRequest := ⟨none, none, none, none, -1⟩

def reqDefault : MatchRequest := ⟨none, none, none, none, 10⟩

/-- Whether the scoring loop skipped the base profile: a base profile was
resolved and its `_id` occurs in the candidate pool (line 245). -/
def baseExcluded (bp : Option Profile) (store : List Profile) : Bool :=
  match bp with
  | some b => store.any (fun c => c.id == b.id)
  | none => false

theorem length_pySliceTo_nonneg {n : Int} (h : 0 ≤ n) (l : List α) :
    (pySliceTo n l).length = min n.toNat l.length := by
  simp [pySliceTo, h]

theorem get_matches_fallback {store : List Profile} {payload : MatchRequest} {pid : String}
    (hpid : payload.profile_id = some pid) (hv : isValidObjectId pid = true)
    (hmiss : find_one store pid = none) :
    get_matches store payload = Except.ok (resultsFor store payload none) := by
  have hres : resolveBaseProfile store payload = Except.ok none := by
    rw [resolveBaseProfile_of_valid hpid hv, hmiss]
  exact get_matches_eq hres

theorem scoredList_length_le (store : List Profile) (bp : Option Profile)
    (bs bi : Finset String) :
    (scoredList store bp bs bi).length ≤
      store.length - (if baseExcluded bp store = true then 1 else 0) := by
  unfold scoredList
  rw [List.length_map]
  by_cases hb : baseExcluded bp store = true
  · rw [if_pos hb]
    match bp, hb with
    | some b, hb =>
      obtain ⟨c, hcmem, hcid⟩ := List.any_eq_true.mp hb
      have hne : (store.filter (candidateKept (some b))).length ≠ store.length := by
        intro heq
        rw [← List.countP_eq_length_filter, List.countP_eq_length] at heq
        have := heq c hcmem
        simp [candidateKept, hcid] at this
      have hlt := lt_of_le_of_ne (List.length_filter_le _ store) hne
      omega
  · rw [if_neg hb]
    simpa using List.length_filter_le _ store

/-! ### Claims -/

/-- C1: for every base skill/interest sets and every candidate in a match
result, the candidate's `match_score` equals
`2 * shared_interests + 1 * shared_skills + 0.5 * complement_skills`
(computed on the sets of distinct strings); and in Scenario A —
base skills `{python, go}`, base interests `{hiking}`, candidate skills
`{python, rust}`, candidate interests `{hiking, chess}` — the score is
`3.5 = 7/2`. -/
theorem match_score_linear_formula (store : List Profile) (payload : MatchRequest)
    (bp : Option Profile) (l : List ScoredProfile) (e : ScoredProfile)
    (hres : resolveBaseProfile store payload = Except.ok bp)
    (hok : get_matches store payload = Except.ok l) (he : e ∈ l) :
    e.match_score =
        2 * (((baseSets bp payload).2 ∩ e.profile.interests.toFinset).card : ℚ)
          + (((baseSets bp payload).1 ∩ e.profile.skills.toFinset).card : ℚ)
          + (1 / 2) * ((e.profile.skills.toFinset \ (baseSets bp payload).1).card : ℚ)
      ∧ matchScore {"python", "go"} {"hiking"} {"python", "rust"} {"hiking", "chess"} = 7 / 2 := by
  constructor
  · rw [get_matches_eq hres] at hok
    injection hok with hl
    subst hl
    obtain ⟨-, -, hscore⟩ := mem_resultsFor he
    rw [hscore]
    rfl
  · have h1 : (({"hiking"} : Finset String) ∩ {"hiking", "chess"}).card = 1 := by decide
    have h2 : (({"python", "go"} : Finset String) ∩ {"python", "rust"}).card = 1 := by decide
    have h3 : (({"python", "rust"} : Finset String) \ {"python", "go"}).card = 1 := by decide
    unfold matchScore
    rw [h1, h2, h3]
    norm_num

/-- Witness for C1 at a concrete store and request. -/
theorem match_score_linear_formula_witness :
    entC1.match_score =
        2 * (((baseSets none reqC1).2 ∩ entC1.profile.interests.toFinset).card : ℚ)
          + (((baseSets none reqC1).1 ∩ entC1.profile.skills.toFinset).card : ℚ)
          + (1 / 2) * ((entC1.profile.skills.toFinset \ (baseSets none reqC1).1).card : ℚ)
      ∧ matchScore {"python", "go"} {"hiking"} {"python", "rust"} {"hiking", "chess"} = 7 / 2 :=
  match_score_linear_formula [carol] reqC1 none (resultsFor [carol] reqC1 none) entC1
    rfl rfl
    (by simp [resultsFor, scoredList, candidateKept, baseSets, pySliceTo, reqC1, entC1])

/-- C2 counterexample: with two candidates and `limit = -1` (Python slice
`scored[:-1]`) the handler returns one entry, so the result does not
contain "at most `limit` entries" when the limit is negative. -/
theorem length_bound_fails_for_negative_limit :
    ∃ l, get_matches [bob, dana] reqNegLimit = Except.ok l ∧
      ¬((l.length : Int) ≤ reqNegLimit.limit) := by
  refine ⟨resultsFor [bob, dana] reqNegLimit none, rfl, ?_⟩
  have hlen : (resultsFor [bob, dana] reqNegLimit none).length = 1 := by
    unfold resultsFor
    rw [List.length_map]
    unfold pySliceTo
    rw [if_neg (by decide)]
    rw [List.length_take, List.length_mergeSort]
    simp [scoredList, candidateKept, reqNegLimit]
  rw [hlen]
  decide

/-- C2 (amended): for every candidate pool and every nonnegative limit, the
match result is sorted in descending order of `match_score`, has length at
most `min(limit, |candidates| − (1 if the base profile was excluded else
0))` (hence at most `limit` entries), and every entry's `match_score` is
non-negative. -/
theorem ranked_bounded_nonneg (store : List Profile) (payload : MatchRequest)
    (bp : Option Profile)
    (hres : resolveBaseProfile store payload = Except.ok bp) (hlim : 0 ≤ payload.limit) :
    ∃ l, get_matches store payload = Except.ok l ∧
      l.Pairwise (fun e1 e2 => e2.match_score ≤ e1.match_score) ∧
      l.length ≤ min payload.limit.toNat
        (store.length - (if baseExcluded bp store = true then 1 else 0)) ∧
      ∀ e ∈ l, 0 ≤ e.match_score := by
  refine ⟨resultsFor store payload bp, get_matches_eq hres, sorted_resultsFor store payload bp, ?_, ?_⟩
  · unfold resultsFor
    rw [List.length_map, length_pySliceTo_nonneg hlim, List.length_mergeSort]
    exact min_le_min le_rfl (scoredList_length_le store bp _ _)
  · intro e he
    obtain ⟨-, -, hscore⟩ := mem_resultsFor he
    rw [hscore]
    exact scoreOf_nonneg _ _ _

/-- Witness for the amended C2 at a concrete store and request. -/
theorem ranked_bounded_nonneg_witness :
    ∃ l, get_matches [bob, dana] reqDefault = Except.ok l ∧
      l.Pairwise (fun e1 e2 => e2.match_score ≤ e1.match_score) ∧
      l.length ≤ min reqDefault.limit.toNat
        (([bob, dana].length) - (if baseExcluded none [bob, dana] = true then 1 else 0)) ∧
      ∀ e ∈ l, 0 ≤ e.match_score :=
  ranked_bounded_nonneg [bob, dana] reqDefault none rfl (by decide)

/-- C3 counterexample: for the request `reqC1` (valid but unresolved
`profile_id`, explicit `skills=["python"]`, `interests=["hiking"]`) the
candidate Carol is scored 1, whereas empty base sets would score her 1/2:
the engine does not proceed with empty base sets. -/
theorem fallback_base_sets_not_empty :
    get_matches [carol] reqC1 = Except.ok [⟨carol, 1⟩] ∧ scoreOf ∅ ∅ carol ≠ 1 := by
  constructor
  · have hstep : get_matches [carol] reqC1 = Except.ok (resultsFor [carol] reqC1 none) := rfl
    rw [hstep]
    have hsc : scoreOf (["python"].toFinset) (["hiking"].toFinset) carol = 1 := by
      have h1 : ((["python"].toFinset : Finset String) ∩ carol.skills.toFinset).card = 1 := by decide
      have h2 : ((["hiking"].toFinset : Finset String) ∩ carol.interests.toFinset).card = 0 := by decide
      have h3 : (carol.skills.toFinset \ (["python"].toFinset : Finset String)).card = 0 := by decide
      unfold scoreOf matchScore
      rw [h1, h2, h3]
      norm_num
    have hlist : resultsFor [carol] reqC1 none =
        [⟨carol, scoreOf (["python"].toFinset) (["hiking"].toFinset) carol⟩] := by
      simp [resultsFor, scoredList, candidateKept, baseSets, pySliceTo, reqC1]
    rw [hlist, hsc]
  · have h1 : ((∅ : Finset String) ∩ carol.skills.toFinset).card = 0 := by decide
    have h2 : ((∅ : Finset String) ∩ carol.interests.toFinset).card = 0 := by decide
    have h3 : (carol.skills.toFinset \ (∅ : Finset String)).card = 1 := by decide
    unfold scoreOf matchScore
    rw [h1, h2, h3]
    norm_num

/-- C3 (amended): when `profile_id` is supplied as a syntactically valid
`ObjectId` that resolves to no stored profile, the engine does not fail: it
proceeds with no base profile and base sets taken from the request's
`skills`/`interests` (empty when those are omitted), returning a scored
result. -/
theorem unresolved_base_uses_request_sets (store : List Profile) (payload : MatchRequest)
    (pid : String)
    (hpid : payload.profile_id = some pid) (hv : isValidObjectId pid = true)
    (hmiss : find_one store pid = none) :
    get_matches store payload = Except.ok (resultsFor store payload none) ∧
      baseSets none payload =
        ((payload.skills.getD []).toFinset, (payload.interests.getD []).toFinset) :=
  ⟨get_matches_fallback hpid hv hmiss, rfl⟩

/-- Witness for the amended C3 at a concrete store and request. -/
theorem unresolved_base_uses_request_sets_witness :
    get_matches [carol] reqC1 = Except.ok (resultsFor [carol] reqC1 none) ∧
      baseSets none reqC1 =
        ((reqC1.skills.getD []).toFinset, (reqC1.interests.getD []).toFinset) :=
  unresolved_base_uses_request_sets [carol] reqC1 pidMissing rfl (by decide) rfl

def reqSelf : MatchRequest := ⟨some "507f1f77bcf86cd799439013", none, none, none, 10⟩

/-- C4: when `profile_id` resolves to a stored profile present in the
candidate pool, that profile never appears in the returned results. -/
theorem base_profile_never_in_results (store : List Profile) (payload : MatchRequest)
    (pid : String) (b : Profile)
    (hpid : payload.profile_id = some pid) (hv : isValidObjectId pid = true)
    (hfound : find_one store pid = some b) (_hmem : b ∈ store) :
    ∃ l, get_matches store payload = Except.ok l ∧ ∀ e ∈ l, e.profile.id ≠ b.id := by
  have hres : resolveBaseProfile store payload = Except.ok (some b) := by
    rw [resolveBaseProfile_of_valid hpid hv, hfound]
  refine ⟨resultsFor store payload (some b), get_matches_eq hres, ?_⟩
  intro e he
  obtain ⟨-, hkept, -⟩ := mem_resultsFor he
  simpa [candidateKept] using hkept

/-- Witness for C4: Carol asks for matches over a pool containing herself. -/
theorem base_profile_never_in_results_witness :
    ∃ l, get_matches [carol, bob] reqSelf = Except.ok l ∧ ∀ e ∈ l, e.profile.id ≠ carol.id :=
  base_profile_never_in_results [carol, bob] reqSelf "507f1f77bcf86cd799439013" carol
    rfl (by decide) rfl (by simp [carol])

def reqEmptyPid : MatchRequest := ⟨some "", none, none, none, 10⟩

/-- C9 counterexample: `profile_id = ""` is not a syntactically valid
`ObjectId`, yet the handler does not raise HTTP 400: the Python truthiness
test `if payload.profile_id:` skips the lookup entirely for the empty
string, and the request succeeds. -/
theorem empty_profile_id_not_rejected :
    isValidObjectId "" = false ∧ get_matches [] reqEmptyPid = Except.ok [] := by
  refine ⟨by decide, ?_⟩
  simp [get_matches, resolveBaseProfile, reqEmptyPid, resultsFor, scoredList, pySliceTo]

/-- C9 (amended): a non-empty `profile_id` that is not a syntactically
valid `ObjectId` makes `get_matches` fail (HTTP 400); the permissive
fallback is reached exactly when the id parses but matches no stored
profile, and then the base sets come from the request's
`skills`/`interests` fields. -/
theorem objectid_gate (store : List Profile) (payload : MatchRequest) (pid : String)
    (hpid : payload.profile_id = some pid) :
    (pid ≠ "" → isValidObjectId pid = false →
        get_matches store payload = Except.error "invalid ObjectId")
    ∧ (isValidObjectId pid = true → find_one store pid = none →
        get_matches store payload = Except.ok (resultsFor store payload none) ∧
        baseSets none payload =
          ((payload.skills.getD []).toFinset, (payload.interests.getD []).toFinset)) := by
  constructor
  · intro hne hinv
    have hres : resolveBaseProfile store payload = Except.error "invalid ObjectId" := by
      simp [resolveBaseProfile, hpid, hne, hinv]
    simp [get_matches, hres]
  · intro hv hmiss
    exact ⟨get_matches_fallback hpid hv hmiss, rfl⟩

def reqBadPid : MatchRequest := ⟨some "zzz", none, none, none, 10⟩

/-- Witness for the amended C9 at a concrete request with an invalid id. -/
theorem objectid_gate_witness :
    ("zzz" ≠ "" → isValidObjectId "zzz" = false →
        get_matches [] reqBadPid = Except.error "invalid ObjectId")
    ∧ (isValidObjectId "zzz" = true → find_one [] "zzz" = none →
        get_matches [] reqBadPid = Except.ok (resultsFor [] reqBadPid none) ∧
        baseSets none reqBadPid =
          ((reqBadPid.skills.getD []).toFinset, (reqBadPid.interests.getD []).toFinset)) :=
  objectid_gate [] reqBadPid "zzz" rfl

def reqNoAttrs : MatchRequest := ⟨some pidMissing, none, none, none, 10⟩

/-- C5 counterexample: with an unresolved (valid) base id and no explicit
skills/interests, Carol — who has one skill — scores 1/2, not 0: the
complement-skills term pays 0.5 per distinct candidate skill even when the
base sets are empty. -/
theorem unresolved_base_score_not_zero :
    get_matches [carol] reqNoAttrs = Except.ok [⟨carol, 1 / 2⟩] ∧ ((1 : ℚ) / 2 ≠ 0) := by
  constructor
  · have hstep : get_matches [carol] reqNoAttrs = Except.ok (resultsFor [carol] reqNoAttrs none) :=
      rfl
    rw [hstep]
    have hsc : scoreOf ∅ ∅ carol = 1 / 2 := by
      have h1 : ((∅ : Finset String) ∩ carol.skills.toFinset).card = 0 := by decide
      have h2 : ((∅ : Finset String) ∩ carol.interests.toFinset).card = 0 := by decide
      have h3 : (carol.skills.toFinset \ (∅ : Finset String)).card = 1 := by decide
      unfold scoreOf matchScore
      rw [h1, h2, h3]
      norm_num
    have hlist : resultsFor [carol] reqNoAttrs none = [⟨carol, scoreOf ∅ ∅ carol⟩] := by
      simp [resultsFor, scoredList, candidateKept, baseSets, pySliceTo, reqNoAttrs]
    rw [hlist, hsc]
  · norm_num

theorem scoreOf_empty_base (c : Profile) :
    scoreOf ∅ ∅ c = (c.skills.toFinset.card : ℚ) / 2 := by
  unfold scoreOf matchScore
  rw [Finset.empty_inter, Finset.empty_inter, Finset.sdiff_empty]
  simp
  ring

/-- C5 (amended): with an unresolved (valid) base id and no explicit
skills/interests, every candidate's score is 0.5 times its number of
distinct skills (0 only for candidates with no skills); the result has
`min(limit, |pool|)` entries, and whenever all candidates tie — equal
numbers of distinct skills, in particular when no candidate has skills —
they are returned in original corpus order, truncated to `limit`. -/
theorem unresolved_base_no_attrs (store : List Profile) (payload : MatchRequest) (pid : String)
    (hpid : payload.profile_id = some pid) (hv : isValidObjectId pid = true)
    (hmiss : find_one store pid = none)
    (hsk : payload.skills = none) (hint : payload.interests = none)
    (hlim : 0 ≤ payload.limit) :
    ∃ l, get_matches store payload = Except.ok l ∧
      (∀ e ∈ l, e.match_score = (e.profile.skills.toFinset.card : ℚ) / 2) ∧
      l.length = min payload.limit.toNat store.length ∧
      ((∀ c ∈ store, ∀ d ∈ store, c.skills.toFinset.card = d.skills.toFinset.card) →
        l = (store.take payload.limit.toNat).map
          (fun c => ⟨c, (c.skills.toFinset.card : ℚ) / 2⟩)) := by
  have hsets : baseSets none payload = (∅, ∅) := by
    simp [baseSets, hsk, hint]
  refine ⟨resultsFor store payload none, get_matches_fallback hpid hv hmiss, ?_, ?_, ?_⟩
  · intro e he
    obtain ⟨-, -, hscore⟩ := mem_resultsFor he
    rw [hscore, hsets]
    exact scoreOf_empty_base e.profile
  · unfold resultsFor
    rw [List.length_map, length_pySliceTo_nonneg hlim, List.length_mergeSort]
    have hfilter : store.filter (candidateKept none) = store := by
      simp [candidateKept]
    unfold scoredList
    rw [List.length_map, hfilter]
  · intro hall
    have hfilter : store.filter (candidateKept none) = store := by
      simp [candidateKept]
    unfold resultsFor scoredList
    rw [hsets, hfilter]
    have hsorted : (store.map (fun c => (scoreOf ∅ ∅ c, c))).Pairwise
        (fun a b => descBy a b = true) := by
      rw [List.pairwise_map]
      apply List.pairwise_of_forall_mem_list
      intro a ha b hb
      apply decide_eq_true
      rw [scoreOf_empty_base, scoreOf_empty_base, hall a ha b hb]
    rw [List.mergeSort_of_sorted hsorted]
    unfold pySliceTo
    rw [if_pos hlim, ← List.map_take, List.map_map]
    apply List.map_congr_left
    intro c hc
    simp [scoreOf_empty_base]

/-- Witness for the amended C5 at a concrete store and request. -/
theorem unresolved_base_no_attrs_witness :
    ∃ l, get_matches [bob] reqNoAttrs = Except.ok l ∧
      (∀ e ∈ l, e.match_score = (e.profile.skills.toFinset.card : ℚ) / 2) ∧
      l.length = min reqNoAttrs.limit.toNat [bob].length ∧
      ((∀ c ∈ [bob], ∀ d ∈ [bob], c.skills.toFinset.card = d.skills.toFinset.card) →
        l = ([bob].take reqNoAttrs.limit.toNat).map
          (fun c => ⟨c, (c.skills.toFinset.card : ℚ) / 2⟩)) :=
  unresolved_base_no_attrs [bob] reqNoAttrs pidMissing rfl (by decide) rfl rfl rfl (by decide)

/-- C6: adding to a candidate one interest shared with the base (not
already present) raises its score by exactly 2; adding one skill shared
with the base raises it by exactly 1; adding one skill the base lacks
raises it by exactly 0.5. -/
theorem score_monotonicity (bs bi : Finset String) (c : Profile) (x y z : String) :
    (x ∈ bi → x ∉ c.interests.toFinset →
      scoreOf bs bi { c with interests := x :: c.interests } = scoreOf bs bi c + 2)
    ∧ (y ∈ bs → y ∉ c.skills.toFinset →
      scoreOf bs bi { c with skills := y :: c.skills } = scoreOf bs bi c + 1)
    ∧ (z ∉ bs → z ∉ c.skills.toFinset →
      scoreOf bs bi { c with skills := z :: c.skills } = scoreOf bs bi c + 1 / 2) := by
  refine ⟨?_, ?_, ?_⟩
  · intro hx hnx
    unfold scoreOf matchScore
    simp only [List.toFinset_cons]
    rw [Finset.inter_insert_of_mem hx,
      Finset.card_insert_of_not_mem (by simp [Finset.mem_inter, hnx])]
    push_cast
    ring
  · intro hy hny
    unfold scoreOf matchScore
    simp only [List.toFinset_cons]
    rw [Finset.inter_insert_of_mem hy, Finset.insert_sdiff_of_mem _ hy,
      Finset.card_insert_of_not_mem (by simp [Finset.mem_inter, hny])]
    push_cast
    ring
  · intro hz hnz
    unfold scoreOf matchScore
    simp only [List.toFinset_cons]
    rw [Finset.inter_insert_of_not_mem hz, Finset.insert_sdiff_of_not_mem _ hz,
      Finset.card_insert_of_not_mem (by simp [Finset.mem_sdiff, hnz])]
    push_cast
    ring

/-- Witness for C6 at a concrete base and candidate. -/
theorem score_monotonicity_witness :
    scoreOf {"s"} {"i"} { bob with interests := "i" :: bob.interests } =
        scoreOf {"s"} {"i"} bob + 2
    ∧ scoreOf {"s"} {"i"} { bob with skills := "s" :: bob.skills } =
        scoreOf {"s"} {"i"} bob + 1
    ∧ scoreOf {"s"} {"i"} { bob with skills := "t" :: bob.skills } =
        scoreOf {"s"} {"i"} bob + 1 / 2 :=
  ⟨(score_monotonicity {"s"} {"i"} bob "i" "s" "t").1 (by decide) (by decide),
   (score_monotonicity {"s"} {"i"} bob "i" "s" "t").2.1 (by decide) (by decide),
   (score_monotonicity {"s"} {"i"} bob "i" "s" "t").2.2 (by decide) (by decide)⟩

def reqBadPidX : MatchRequest := ⟨some "x", none, none, none, 10⟩

/-- C7 counterexample: an empty candidate pool does not guarantee an empty
result without error — a request whose `profile_id` is not a valid
`ObjectId` raises HTTP 400 even over an empty pool. -/
theorem empty_pool_can_error :
    get_matches [] reqBadPidX = Except.error "invalid ObjectId" := rfl

/-- C7 (amended): whenever base resolution does not fail (`profile_id`
absent, empty, or a syntactically valid `ObjectId`), an empty candidate
pool yields an empty result without error, and `limit = 0` yields an empty
result regardless of pool size. -/
theorem empty_pool_and_zero_limit (store : List Profile) (payload : MatchRequest)
    (bp : Option Profile) (hres : resolveBaseProfile store payload = Except.ok bp) :
    (store = [] → get_matches store payload = Except.ok [])
    ∧ (payload.limit = 0 → get_matches store payload = Except.ok []) := by
  constructor
  · intro hempty
    subst hempty
    rw [get_matches_eq hres]
    simp [resultsFor, scoredList, pySliceTo]
  · intro h0
    rw [get_matches_eq hres]
    simp [resultsFor, pySliceTo, h0]

/-- Witness for the amended C7 at a concrete store and request. -/
theorem empty_pool_and_zero_limit_witness :
    (([] : List Profile) = [] → get_matches [] reqDefault = Except.ok [])
    ∧ (reqDefault.limit = 0 → get_matches [] reqDefault = Except.ok []) :=
  empty_pool_and_zero_limit [] reqDefault none rfl

/-- C8: duplicate entries in skill/interest lists never change any
computed match score — scoring collapses every list to a set first, so the
score (and the whole response, when the base comes from the request body)
depends only on the underlying sets of distinct strings. -/
theorem duplicates_never_change_scores (bs bi : Finset String) (c c' : Profile)
    (store : List Profile) (p p' : MatchRequest)
    (hcs : c.skills.toFinset = c'.skills.toFinset)
    (hci : c.interests.toFinset = c'.interests.toFinset)
    (hpid : p.profile_id = none) (hpid' : p'.profile_id = none)
    (hsk : (p.skills.getD []).toFinset = (p'.skills.getD []).toFinset)
    (hint : (p.interests.getD []).toFinset = (p'.interests.getD []).toFinset)
    (hlim : p.limit = p'.limit) :
    scoreOf bs bi c = scoreOf bs bi c' ∧ baseSets (some c) p = baseSets (some c') p' ∧
      get_matches store p = get_matches store p' := by
  have hsets : baseSets none p = baseSets none p' := by
    simp only [baseSets]
    rw [hsk, hint]
  refine ⟨?_, ?_, ?_⟩
  · unfold scoreOf
    rw [hcs, hci]
  · simp only [baseSets]
    rw [hcs, hci]
  · have h1 : resolveBaseProfile store p = Except.ok none := by
      simp [resolveBaseProfile, hpid]
    have h2 : resolveBaseProfile store p' = Except.ok none := by
      simp [resolveBaseProfile, hpid']
    rw [get_matches_eq h1, get_matches_eq h2]
    unfold resultsFor
    rw [hsets, hlim]

def eve : Profile :=
  ⟨"507f1f77bcf86cd799439015", "Eve", "eve@example.com", ["a", "a"], ["b", "b"]⟩

def eve2 : Profile :=
  ⟨"507f1f77bcf86cd799439015", "Eve", "eve@example.com", ["a"], ["b"]⟩

def reqDup : MatchRequest := ⟨none, none, some ["a", "a"], some ["b"], 10⟩

def reqDedup : MatchRequest := ⟨none, none, some ["a"], some ["b", "b"], 10⟩

/-- Witness for C8: duplicated lists give the same score and response. -/
theorem duplicates_never_change_scores_witness :
    scoreOf {"a"} {"b"} eve = scoreOf {"a"} {"b"} eve2 ∧
      baseSets (some eve) reqDup = baseSets (some eve2) reqDedup ∧
      get_matches [eve] reqDup = get_matches [eve] reqDedup :=
  duplicates_never_change_scores {"a"} {"b"} eve eve2 [eve] reqDup reqDedup
    (by decide) (by decide) rfl rfl (by decide) (by decide) rfl

def reqNegBad : MatchRequest := ⟨some "w", none, none, none, -1⟩

/-- C10 counterexample: a request with a negative limit can still error —
an invalid `profile_id` raises HTTP 400 before any slicing happens. -/
theorem negative_limit_can_error :
    get_matches [bob] reqNegBad = Except.error "invalid ObjectId" := rfl

/-- C10 (amended): for every match request with a negative limit `n` whose
base resolution succeeds, `get_matches` does not error: by Python slice
semantics `scored[:n]` it returns all scored candidates except the `|n|`
lowest-ranked ones, and the result is non-empty whenever more than `|n|`
candidates were scored, so the `min(limit, ·)` length bound does not apply. -/
theorem negative_limit_drops_lowest (store : List Profile) (payload : MatchRequest)
    (bp : Option Profile)
    (hres : resolveBaseProfile store payload = Except.ok bp) (hneg : payload.limit < 0) :
    ∃ l, get_matches store payload = Except.ok l ∧
      (let sorted := (scoredList store bp (baseSets bp payload).1
          (baseSets bp payload).2).mergeSort descBy
       l = (sorted.take (sorted.length - (-payload.limit).toNat)).map (fun sc => ⟨sc.2, sc.1⟩) ∧
       ((-payload.limit).toNat < sorted.length → l ≠ [])) := by
  refine ⟨resultsFor store payload bp, get_matches_eq hres, ?_, ?_⟩
  · unfold resultsFor pySliceTo
    rw [if_neg (by omega)]
  · intro hlt
    apply List.ne_nil_of_length_pos
    unfold resultsFor pySliceTo
    rw [if_neg (by omega), List.length_map, List.length_take]
    omega

/-- Witness for the amended C10 at a concrete store and request. -/
theorem negative_limit_drops_lowest_witness :
    ∃ l, get_matches [bob, dana] reqNegLimit = Except.ok l ∧
      (let sorted := (scoredList [bob, dana] none (baseSets none reqNegLimit).1
          (baseSets none reqNegLimit).2).mergeSort descBy
       l = (sorted.take (sorted.length - (-reqNegLimit.limit).toNat)).map
          (fun sc => ⟨sc.2, sc.1⟩) ∧
       ((-reqNegLimit.limit).toNat < sorted.length → l ≠ [])) :=
  negative_limit_drops_lowest [bob, dana] reqNegLimit none rfl (by decide)

